import Mathlib

/-!
Shallow embedding of the `cheesejaguar/book` repository (two Python files,
`write.py` and `convert.py`) together with proofs about the embedded
definitions.

Modelling conventions:
- Python strings become Lean `String`; `str.strip()` becomes `pyStrip`
  (drop leading and trailing whitespace, modelled over the character list).
- The streamed HTTP response consumed by `call_ollama_api` becomes a
  `List Fragment`, where a fragment is either `malformed` (a line that fails
  `json.loads`, or an empty line, both of which contribute nothing and let
  the loop continue) or `valid response done` (a parsed JSON object with an
  optional `"response"` string field and a `"done"` flag that counts as
  terminal exactly when it is the boolean `true`).
- The inference endpoint used by the driver loop becomes an oracle
  `api : String → Option String` mapping a prompt to the (already trimmed)
  text returned by `call_ollama_api`, with `none` standing for a
  transport-level failure (`requests.exceptions.RequestException`), which
  the code turns into `sys.exit(1)`.
- The file system touched by `main` becomes `FileSys`: the `book.txt` slot
  plus a list of other named files; `os.rename` of `book.txt` to the
  timestamped archive becomes `archiveStep`.
-/

namespace Book

/-- Python `str.strip()`: drop leading and trailing whitespace characters. -/
def pyStrip (s : String) : String :=
  String.mk (((s.data.dropWhile Char.isWhitespace).reverse.dropWhile
    Char.isWhitespace).reverse)

/-! ### The streaming inference client (`write.py`, `call_ollama_api`, lines 55-73) -/

/-- One line of the streamed response body.  `malformed` is a line on which
`json.loads` raises `JSONDecodeError` (silently skipped by the `except`
branch, the loop continues) or an empty line (skipped by `if line:`).
`valid response done` is a parsed JSON object: `response` is the optional
`"response"` field, `done` is true exactly when the object carries
`"done": true`. -/
inductive Fragment where
  | malformed : Fragment
  | valid (response : Option String) (done : Bool) : Fragment
deriving DecidableEq

/-- The accumulation loop of `call_ollama_api` (lines 55-69): start from the
empty string; for each valid fragment append its `"response"` field if
present, then stop (`break`) if the fragment carries `done = true`;
malformed fragments are skipped and the loop continues. -/
def accumulate : List Fragment → String
  | [] => ""
  | .malformed :: rest => accumulate rest
  | .valid r d :: rest => (r.getD "") ++ (if d then "" else accumulate rest)

/-- `call_ollama_api` on a successfully opened stream: the accumulated text,
stripped (`generated_text.strip()`, line 73). -/
def callOllamaApi (stream : List Fragment) : String :=
  pyStrip (accumulate stream)

/-- The `"response"` text a fragment contributes (empty for a malformed
fragment, which contributes nothing). -/
def fragResponse : Fragment → String
  | .malformed => ""
  | .valid r _ => r.getD ""

/-- Whether a fragment parsed successfully. -/
def isValidFrag : Fragment → Bool
  | .malformed => false
  | .valid _ _ => true

/-- Whether a fragment is terminal (`data.get("done", False) is True`). -/
def isDoneFrag : Fragment → Bool
  | .valid _ true => true
  | _ => false

/-- The fragments the loop actually consumes: everything up to and including
the first terminal fragment (the whole stream if none is terminal). -/
def takeUntilDone : List Fragment → List Fragment
  | [] => []
  | f :: rest => if isDoneFrag f then [f] else f :: takeUntilDone rest

/-- Concatenation, in order, of the `"response"` fields of a fragment list. -/
def concatResponses : List Fragment → String
  | [] => ""
  | f :: rest => fragResponse f ++ concatResponses rest

/-! ### The word counter (`write.py`, `count_words_with_ollama`, lines 106-125) -/

/-- The word-count prompt built at lines 111-115. -/
def countPrompt (text : String) : String :=
  "You are given the following text. Please return only the number " ++
  "of words in the text (as an integer) without any additional commentary.\n\n" ++
  "Text:\n" ++ text ++ "\n\nNumber of words:"

/-- `"".join(filter(str.isdigit, s))`: the digit characters of `s`, in order. -/
def digitsOf (s : String) : String :=
  String.mk (s.data.filter Char.isDigit)

/-- Python `int` applied to a non-empty string of digit characters. -/
def parseNatDigits (s : String) : Nat :=
  s.data.foldl (fun n c => 10 * n + (c.toNat - 48)) 0

/-- Lines 119-124: parse `int("".join(filter(str.isdigit, response)))`;
`int("")` raises `ValueError`, caught and turned into `0`. -/
def extractWordCount (response : String) : Nat :=
  if digitsOf response = "" then 0 else parseNatDigits (digitsOf response)

/-- `count_words_with_ollama` given an endpoint oracle that already models a
successful `call_ollama_api` round trip. -/
def countWordsWithOllama (api : String → String) (text : String) : Nat :=
  extractWordCount (api (countPrompt text))

/-! ### The chapter writer and the driver loop (`write.py`, lines 76-103 and 149-253) -/

/-- One parsed outline row: `(chapter_number, chapter_title, chapter_summary)`
(lines 182-185), each field already stripped. -/
structure ChapterSpec where
  num : String
  title : String
  outline : String
deriving DecidableEq

/-- The three stripped fields of an outline row (lines 182-184); fields are
read by index, extra fields are ignored. -/
def stripRow (row : List String) : ChapterSpec :=
  ⟨pyStrip (row.getD 0 ""), pyStrip (row.getD 1 ""), pyStrip (row.getD 2 "")⟩

/-- Outline parsing (lines 173-185): rows with fewer than three fields are
skipped, the rest become `ChapterSpec`s in file order. -/
def parseOutline (rows : List (List String)) : List ChapterSpec :=
  rows.filterMap fun row =>
    if row.length < 3 then none else some (stripRow row)

/-- The chapter-generation prompt built at lines 91-98. -/
def chapterPrompt (summary current : String) (c : ChapterSpec) : String :=
  "Overall Book Summary:\n" ++ summary ++ "\n\n" ++
  "Story so far:\n" ++ current ++ "\n\n" ++
  "This chapter is described as:\n" ++ c.outline ++ "\n\n" ++
  "Please write Chapter " ++ c.num ++ " titled '" ++ c.title ++ "' " ++
  "so that it follows naturally from the story so far.\n\n" ++
  "Begin the chapter now:"

/-- The block `write_chapter_to_book` appends to `book.txt` (lines 101-103):
heading line with the chapter number and title, blank line, generated body,
trailing newline. -/
def chapterBlock (num title body : String) : String :=
  "\n\n### Chapter " ++ num ++ ": " ++ title ++ "\n\n" ++ body ++ "\n"

/-- The acknowledgement prompt built at lines 234-239. -/
def ackPrompt (text : String) : String :=
  "Here is the progress so far:\n\n" ++ text ++ "\n\n" ++
  "Please read and acknowledge the story so far. " ++
  "When you're done, just say 'Understood.'"

/-- The final summary prompt built at lines 142-145 (`summarize_book`). -/
def summaryPrompt (text : String) : String :=
  "Please provide a concise summary of the following story:\n\n" ++ text ++
  "\n\nSummary:"

/-- The per-chapter loop of `main` (lines 198-242), tracking the content of
`book.txt` (`book`; the file is read before and after each append, which the
accumulator models).  `api prompt = none` models a transport failure inside
`call_ollama_api`, which calls `sys.exit(1)`: the loop stops with
`.error book`, `book` being the transcript at that moment.  Each iteration:
generate the chapter and append its block, then the word-count call, then —
only when chapters remain (`chapters_written < total_chapters`) — the
acknowledgement call. -/
def chapterLoop (api : String → Option String) (summary : String) :
    List ChapterSpec → String → Except String String
  | [], book => .ok book
  | c :: rest, book =>
    match api (chapterPrompt summary book c) with
    | none => .error book
    | some gen =>
      let book2 := book ++ chapterBlock c.num c.title gen
      match api (countPrompt book2) with
      | none => .error book2
      | some _ =>
        if rest.isEmpty then chapterLoop api summary rest book2
        else
          match api (ackPrompt book2) with
          | none => .error book2
          | some _ => chapterLoop api summary rest book2

/-- `main` after the archive step (lines 160-253), as exit code plus final
transcript content.  `inputFile`/`outlineFile` are `none` when the file is
missing (`FileNotFoundError` → message → `sys.exit(1)`).  An empty stripped
summary or an outline with no well-formed rows exits 0 before any chapter is
written.  Otherwise the chapter loop runs from an empty transcript, and on
completion `summarize_book` issues one more inference call before the normal
return (exit 0). -/
def mainRun (api : String → Option String) (inputFile : Option String)
    (outlineFile : Option (List (List String))) : Nat × String :=
  match inputFile with
  | none => (1, "")
  | some raw =>
    let summary := pyStrip raw
    if summary = "" then (0, "")
    else
      match outlineFile with
      | none => (1, "")
      | some rows =>
        let chapters := parseOutline rows
        if chapters = [] then (0, "")
        else
          match chapterLoop api summary chapters "" with
          | .error book => (1, book)
          | .ok book =>
            match api (summaryPrompt book) with
            | none => (1, book)
            | some _ => (0, book)

/-- Concatenation of the chapter blocks for a list of chapter specs paired
with their generated bodies. -/
def blocksConcat : List ChapterSpec → List String → String
  | c :: cs, b :: bs => chapterBlock c.num c.title b ++ blocksConcat cs bs
  | _, _ => ""

/-! ### The file system around `main` (`write.py`, lines 153-158) -/

/-- The files `main` can touch: the `book.txt` slot (`none` = absent) and the
other named files of the directory. -/
structure FileSys where
  book : Option String
  files : List (String × String)
deriving DecidableEq

/-- The archive name `book_<timestamp>.txt` (line 156). -/
def archiveName (ts : String) : String := "book_" ++ ts ++ ".txt"

/-- Lines 153-158: if `book.txt` exists it is renamed (`os.rename`) to the
timestamped archive name; its content moves unchanged and `book.txt` no
longer exists afterwards. -/
def archiveStep (ts : String) (fs : FileSys) : FileSys :=
  match fs.book with
  | none => fs
  | some content => ⟨none, (archiveName ts, content) :: fs.files⟩

/-- A whole invocation of `main` (lines 149-253): archive first, then run;
the final `book.txt` exists exactly when some append happened (every
appended block is non-empty, so a run that wrote nothing leaves no file). -/
def mainFull (ts : String) (api : String → Option String)
    (inputFile : Option String) (outlineFile : Option (List (List String)))
    (fs : FileSys) : Nat × FileSys :=
  let fs1 := archiveStep ts fs
  let r := mainRun api inputFile outlineFile
  (r.1, ⟨if r.2 = "" then none else some r.2, fs1.files⟩)

/-! ### The heading converter (`convert.py`) -/

/-- Match a literal character sequence at the head of `cs`, returning the
remainder on success. -/
def stripPrefixCs : List Char → List Char → Option (List Char)
  | [], cs => some cs
  | _ :: _, [] => none
  | p :: ps, c :: cs => if c = p then stripPrefixCs ps cs else none

/-- Try to match the regex `### Chapter (\d+): (.+)` at the start of `cs`
(Python `re.sub` semantics: `\d+` is a maximal non-empty digit run that must
be followed by the literal `": "`; `.+` is a maximal non-empty run of
non-newline characters).  On success, return the captured title (group 2)
and the remainder of the text after the match. -/
def matchChapterAt (cs : List Char) : Option (List Char × List Char) :=
  match stripPrefixCs "### Chapter ".data cs with
  | none => none
  | some cs1 =>
    if cs1.takeWhile Char.isDigit = [] then none
    else
      match stripPrefixCs [':', ' '] (cs1.dropWhile Char.isDigit) with
      | none => none
      | some cs3 =>
        if cs3.takeWhile (fun c => c != '\n') = [] then none
        else some (cs3.takeWhile (fun c => c != '\n'),
                   cs3.dropWhile (fun c => c != '\n'))

/-- The replacement text `\chapter{<title>}` for a matched heading (the
chapter number, group 1, is dropped by the replacement `r'\\chapter{\2}'`). -/
def chapterRepl (title : List Char) : List Char :=
  "\\chapter\x7b".data ++ title ++ ['\x7d']

/-- `re.sub` scanning, fuelled so the recursion is structural: at each
position emit the replacement and resume after the match (leftmost,
non-overlapping), otherwise copy one character and advance.  Fuel at least
the length of the text is always enough, since a match consumes at least one
character. -/
def convertSubF : Nat → List Char → List Char
  | 0, cs => cs
  | _ + 1, [] => []
  | fuel + 1, c :: rest =>
    match matchChapterAt (c :: rest) with
    | some (t, after) => chapterRepl t ++ convertSubF fuel after
    | none => c :: convertSubF fuel rest

/-- `re.sub(r'### Chapter (\d+): (.+)', r'\\chapter{\2}', content)`
(`convert.py`, lines 12-18), over the character list. -/
def convertSub (cs : List Char) : List Char :=
  convertSubF cs.length cs

/-- The converter's whole text transformation as a `String` function. -/
def convertString (s : String) : String :=
  String.mk (convertSub s.data)

end Book

namespace Book

/-! ### Basic lemmas about the stream client -/

theorem accumulate_eq_concat_takeUntilDone (s : List Fragment) :
    accumulate s = concatResponses (takeUntilDone s) := by
  induction s with
  | nil => rfl
  | cons f rest ih =>
    cases f with
    | malformed =>
      simp [accumulate, takeUntilDone, isDoneFrag, concatResponses, fragResponse, ih]
    | valid r d =>
      cases d with
      | false =>
        simp [accumulate, takeUntilDone, isDoneFrag, concatResponses, fragResponse, ih]
      | true =>
        simp [accumulate, takeUntilDone, isDoneFrag, concatResponses, fragResponse]

theorem accumulate_filter_valid (s : List Fragment) :
    accumulate (s.filter isValidFrag) = accumulate s := by
  induction s with
  | nil => rfl
  | cons f rest ih =>
    cases f with
    | malformed => simpa [List.filter, isValidFrag, accumulate] using ih
    | valid r d =>
      cases d with
      | false => simp [List.filter, isValidFrag, accumulate, ih]
      | true => simp [List.filter, isValidFrag, accumulate]

theorem accumulate_no_done (s : List Fragment) (h : ∀ f ∈ s, isDoneFrag f = false) :
    accumulate s = concatResponses s := by
  induction s with
  | nil => rfl
  | cons f rest ih =>
    have hf : isDoneFrag f = false := h f (List.mem_cons_self f rest)
    have hrest : ∀ f ∈ rest, isDoneFrag f = false := fun g hg => h g (List.mem_cons_of_mem f hg)
    cases f with
    | malformed =>
      simp [accumulate, concatResponses, fragResponse, ih hrest]
    | valid r d =>
      cases d with
      | false => simp [accumulate, concatResponses, fragResponse, ih hrest]
      | true => simp [isDoneFrag] at hf

/-! ### Lemmas about the driver loop -/

theorem chapterLoop_single (api : String → Option String) (summary : String)
    (c : ChapterSpec) (book gen w : String)
    (hg : api (chapterPrompt summary book c) = some gen)
    (hw : api (countPrompt (book ++ chapterBlock c.num c.title gen)) = some w) :
    chapterLoop api summary [c] book = .ok (book ++ chapterBlock c.num c.title gen) := by
  simp [chapterLoop, hg, hw]

theorem chapterLoop_cons_cons (api : String → Option String) (summary : String)
    (c c2 : ChapterSpec) (rest2 : List ChapterSpec) (book gen w a : String)
    (hg : api (chapterPrompt summary book c) = some gen)
    (hw : api (countPrompt (book ++ chapterBlock c.num c.title gen)) = some w)
    (ha : api (ackPrompt (book ++ chapterBlock c.num c.title gen)) = some a) :
    chapterLoop api summary (c :: c2 :: rest2) book =
      chapterLoop api summary (c2 :: rest2) (book ++ chapterBlock c.num c.title gen) := by
  conv_lhs => rw [chapterLoop]
  simp [hg, hw, ha]

theorem chapterLoop_extends (api : String → Option String) (summary : String)
    (cs : List ChapterSpec) : ∀ book : String, ∃ t : String,
      chapterLoop api summary cs book = .ok (book ++ t) ∨
      chapterLoop api summary cs book = .error (book ++ t) := by
  induction cs with
  | nil =>
    intro book
    exact ⟨"", Or.inl (by simp [chapterLoop, String.append_empty])⟩
  | cons c rest ih =>
    intro book
    cases hg : api (chapterPrompt summary book c) with
    | none => exact ⟨"", Or.inr (by simp [chapterLoop, hg, String.append_empty])⟩
    | some gen =>
      cases hw : api (countPrompt (book ++ chapterBlock c.num c.title gen)) with
      | none =>
        exact ⟨chapterBlock c.num c.title gen, Or.inr (by simp [chapterLoop, hg, hw])⟩
      | some w =>
        cases rest with
        | nil =>
          exact ⟨chapterBlock c.num c.title gen, Or.inl (by simp [chapterLoop, hg, hw])⟩
        | cons c2 rest2 =>
          cases ha : api (ackPrompt (book ++ chapterBlock c.num c.title gen)) with
          | none =>
            exact ⟨chapterBlock c.num c.title gen, Or.inr (by simp [chapterLoop, hg, hw, ha])⟩
          | some a =>
            obtain ⟨t, ht⟩ := ih (book ++ chapterBlock c.num c.title gen)
            refine ⟨chapterBlock c.num c.title gen ++ t, ?_⟩
            rw [chapterLoop_cons_cons api summary c c2 rest2 book gen w a hg hw ha,
              ← String.append_assoc]
            exact ht

theorem chapterLoop_ok_blocks (api : String → Option String) (summary : String)
    (cs : List ChapterSpec) : ∀ book₀ bk : String,
      chapterLoop api summary cs book₀ = .ok bk →
      ∃ bodies : List String, bodies.length = cs.length ∧
        bk = book₀ ++ blocksConcat cs bodies := by
  induction cs with
  | nil =>
    intro book₀ bk h
    have hb : book₀ = bk := by simpa [chapterLoop] using h
    subst hb
    exact ⟨[], rfl, by simp [blocksConcat, String.append_empty]⟩
  | cons c rest ih =>
    intro book₀ bk h
    cases hg : api (chapterPrompt summary book₀ c) with
    | none => simp [chapterLoop, hg] at h
    | some gen =>
      cases hw : api (countPrompt (book₀ ++ chapterBlock c.num c.title gen)) with
      | none => simp [chapterLoop, hg, hw] at h
      | some w =>
        cases rest with
        | nil =>
          have hb : book₀ ++ chapterBlock c.num c.title gen = bk := by
            simpa [chapterLoop, hg, hw] using h
          exact ⟨[gen], rfl, by simp [blocksConcat, String.append_empty, ← hb]⟩
        | cons c2 rest2 =>
          cases ha : api (ackPrompt (book₀ ++ chapterBlock c.num c.title gen)) with
          | none => simp [chapterLoop, hg, hw, ha] at h
          | some a =>
            have h' : chapterLoop api summary (c2 :: rest2)
                (book₀ ++ chapterBlock c.num c.title gen) = .ok bk := by
              rw [← chapterLoop_cons_cons api summary c c2 rest2 book₀ gen w a hg hw ha]
              exact h
            obtain ⟨bodies, hlen, hbk⟩ := ih _ _ h'
            exact ⟨gen :: bodies, by simp [hlen],
              by simp [blocksConcat, hbk, String.append_assoc]⟩

theorem chapterLoop_total (api : String → Option String) (summary : String)
    (hapi : ∀ p, (api p).isSome) (cs : List ChapterSpec) :
    ∀ book : String, ∃ bk, chapterLoop api summary cs book = .ok bk := by
  induction cs with
  | nil => intro book; exact ⟨book, by simp [chapterLoop]⟩
  | cons c rest ih =>
    intro book
    obtain ⟨gen, hg⟩ := Option.isSome_iff_exists.mp (hapi (chapterPrompt summary book c))
    obtain ⟨w, hw⟩ :=
      Option.isSome_iff_exists.mp (hapi (countPrompt (book ++ chapterBlock c.num c.title gen)))
    cases rest with
    | nil =>
      exact ⟨book ++ chapterBlock c.num c.title gen, by simp [chapterLoop, hg, hw]⟩
    | cons c2 rest2 =>
      obtain ⟨a, ha⟩ :=
        Option.isSome_iff_exists.mp (hapi (ackPrompt (book ++ chapterBlock c.num c.title gen)))
      obtain ⟨bk, hbk⟩ := ih (book ++ chapterBlock c.num c.title gen)
      exact ⟨bk, by
        rw [chapterLoop_cons_cons api summary c c2 rest2 book gen w a hg hw ha]
        exact hbk⟩

theorem parseOutline_of_full (rows : List (List String))
    (h : ∀ r ∈ rows, 3 ≤ r.length) : parseOutline rows = rows.map stripRow := by
  induction rows with
  | nil => rfl
  | cons r rest ih =>
    have hr : ¬ r.length < 3 := by
      have := h r (List.mem_cons_self r rest)
      omega
    have hrest := ih fun x hx => h x (List.mem_cons_of_mem r hx)
    simp only [parseOutline, List.filterMap_cons, hr, if_false, List.map_cons] at *
    simp [hrest]

/-! ### Claims about the streaming client -/

/-- Claim C2: for every streamed response made of well-formed fragments,
each optionally carrying a response text field and optionally a done flag,
`call_ollama_api` returns the concatenation, in arrival order, of the
response fields of the fragments up to and including the first fragment with
`done = true`, with leading and trailing whitespace trimmed. -/
theorem claim2_stream_concat_until_done (s : List Fragment)
    (h : ∀ f ∈ s, isValidFrag f = true) :
    callOllamaApi s = pyStrip (concatResponses (takeUntilDone s)) := by
  unfold callOllamaApi
  rw [accumulate_eq_concat_takeUntilDone]

/-- The stream of the spec's example: two response fragments followed by a
terminal fragment. -/
def helloStream : List Fragment :=
  [.valid (some "Hello ") false, .valid (some "world") false, .valid none true]

theorem claim2_witness :
    (∀ f ∈ helloStream, isValidFrag f = true) ∧ callOllamaApi helloStream = "Hello world" :=
  ⟨by decide, by
    rw [claim2_stream_concat_until_done helloStream (by decide)]
    decide⟩

/-- Claim C3: malformed fragments interleaved with valid ones are silently
skipped and never abort the stream: filtering them out of any stream leaves
the client's result unchanged, and (when no fragment is terminal) the
accumulated text is exactly the in-order concatenation of the valid
fragments' response fields. -/
theorem claim3_malformed_skipped (s : List Fragment) :
    callOllamaApi s = callOllamaApi (s.filter isValidFrag) ∧
    ((∀ f ∈ s, isDoneFrag f = false) →
      accumulate s = concatResponses (s.filter isValidFrag)) := by
  constructor
  · unfold callOllamaApi
    rw [accumulate_filter_valid]
  · intro h
    rw [← accumulate_filter_valid]
    exact accumulate_no_done _ fun f hf => h f (List.mem_of_mem_filter hf)

/-- A stream with a malformed fragment interleaved between two valid ones. -/
def mixedStream : List Fragment :=
  [.valid (some "Hello ") false, .malformed, .valid (some "world") false]

theorem claim3_witness :
    callOllamaApi mixedStream = callOllamaApi (mixedStream.filter isValidFrag) ∧
    accumulate mixedStream = concatResponses (mixedStream.filter isValidFrag) ∧
    accumulate mixedStream = "Hello world" :=
  ⟨(claim3_malformed_skipped mixedStream).1,
   (claim3_malformed_skipped mixedStream).2 (by decide),
   ((claim3_malformed_skipped mixedStream).2 (by decide)).trans (by decide)⟩

/-- Claim C10: a stream that is exhausted without any terminal fragment does
not make the client fail: it returns the trimmed concatenation of the
response fields received so far, and the empty stream yields the empty
string. -/
theorem claim10_no_done_stream (s : List Fragment)
    (h : ∀ f ∈ s, isDoneFrag f = false) :
    callOllamaApi s = pyStrip (concatResponses s) ∧ callOllamaApi [] = "" := by
  refine ⟨?_, rfl⟩
  unfold callOllamaApi
  rw [accumulate_no_done s h]

/-- A never-terminated stream whose concatenation needs trimming. -/
def noDoneStream : List Fragment :=
  [.valid (some " Hello") false, .malformed, .valid (some " world ") false]

theorem claim10_witness :
    (∀ f ∈ noDoneStream, isDoneFrag f = false) ∧ callOllamaApi noDoneStream = "Hello world" :=
  ⟨by decide, by
    rw [(claim10_no_done_stream noDoneStream (by decide)).1]
    decide⟩

/-! ### Claim about the word counter -/

/-- Claim C4: the word counter extracts every digit character of the
endpoint's raw response, concatenates them and parses the result as an
integer; the response "The text contains 42 words." yields 42, and any
response with no digit characters yields 0 instead of signalling an
error. -/
theorem claim4_word_count_digits :
    (∀ (api : String → String) (text : String),
      api (countPrompt text) = "The text contains 42 words." →
      countWordsWithOllama api text = 42) ∧
    (∀ (api : String → String) (text : String),
      (∀ c ∈ (api (countPrompt text)).data, ¬ c.isDigit) →
      countWordsWithOllama api text = 0) ∧
    (∀ response : String, digitsOf response ≠ "" →
      extractWordCount response = parseNatDigits (digitsOf response)) := by
  refine ⟨?_, ?_, ?_⟩
  · intro api text h
    unfold countWordsWithOllama
    rw [h]
    decide
  · intro api text h
    have hd : digitsOf (api (countPrompt text)) = "" := by
      unfold digitsOf
      have hfil : (api (countPrompt text)).data.filter Char.isDigit = [] := by
        rw [List.filter_eq_nil_iff]
        intro c hc
        exact h c hc
      rw [hfil]
    unfold countWordsWithOllama extractWordCount
    simp [hd]
  · intro response h
    unfold extractWordCount
    simp [h]

theorem claim4_witness :
    countWordsWithOllama (fun _ => "The text contains 42 words.") "t" = 42 ∧
    countWordsWithOllama (fun _ => "no numbers here!") "t" = 0 :=
  ⟨claim4_word_count_digits.1 (fun _ => "The text contains 42 words.") "t" rfl,
   claim4_word_count_digits.2.1 (fun _ => "no numbers here!") "t" (by decide)⟩

/-! ### Claims about the driver loop and `main` -/

/-- Claim C1: for every well-formed outline table whose rows all have at
least three fields, a completed run appends to the (initially empty)
transcript exactly one chapter block per row, in outline-row order; each
block is the heading carrying that row's stripped chapter number and title
followed by the generated body; and the transcript only ever grows during
the run (both on a completed loop and at a transport failure). -/
theorem claim1_completed_run_appends_blocks (api : String → Option String)
    (summary : String) (rows : List (List String)) (book : String)
    (h3 : ∀ r ∈ rows, 3 ≤ r.length)
    (hok : chapterLoop api summary (parseOutline rows) "" = .ok book) :
    (∃ bodies : List String, bodies.length = rows.length ∧
      book = blocksConcat (rows.map stripRow) bodies) ∧
    (∀ (cs : List ChapterSpec) (b₀ : String), ∃ t : String,
      chapterLoop api summary cs b₀ = .ok (b₀ ++ t) ∨
      chapterLoop api summary cs b₀ = .error (b₀ ++ t)) := by
  constructor
  · rw [parseOutline_of_full rows h3] at hok
    obtain ⟨bodies, hlen, hbk⟩ := chapterLoop_ok_blocks api summary _ _ _ hok
    refine ⟨bodies, ?_, ?_⟩
    · simpa using hlen
    · rw [hbk, String.empty_append]
  · exact chapterLoop_extends api summary

/-- A two-row outline for concrete runs. -/
def rowsW : List (List String) := [["1", "A", "o"], ["2", "B", "p"]]

/-- A total endpoint oracle that answers every prompt with "x". -/
def apiW : String → Option String := fun _ => some "x"

theorem claim1_witness :
    (∀ r ∈ rowsW, 3 ≤ r.length) ∧
    chapterLoop apiW "s" (parseOutline rowsW) "" =
      .ok "\n\n### Chapter 1: A\n\nx\n\n\n### Chapter 2: B\n\nx\n" ∧
    (∃ bodies : List String, bodies.length = rowsW.length ∧
      "\n\n### Chapter 1: A\n\nx\n\n\n### Chapter 2: B\n\nx\n" =
        blocksConcat (rowsW.map stripRow) bodies) :=
  ⟨by decide, rfl,
   (claim1_completed_run_appends_blocks apiW "s" rowsW _ (by decide) rfl).1⟩

/-- Claim C5: the process exits 0 on full success and on benign early
termination (book summary present but stripping to empty, or an outline with
no well-formed rows), and exits 1 when the book summary or the outline file
is missing, or when any inference call (chapter generation, word count,
acknowledgement, or the final summary) suffers a transport failure; a
missing book summary also means no transcript chapters are written. -/
theorem claim5_exit_codes (api : String → Option String) (raw : String)
    (rows : List (List String)) (o : Option (List (List String))) :
    mainRun api none o = (1, "") ∧
    (pyStrip raw = "" → mainRun api (some raw) o = (0, "")) ∧
    (pyStrip raw ≠ "" → mainRun api (some raw) none = (1, "")) ∧
    (pyStrip raw ≠ "" → parseOutline rows = [] →
      mainRun api (some raw) (some rows) = (0, "")) ∧
    ((∀ p, (api p).isSome) → (mainRun api (some raw) (some rows)).1 = 0) ∧
    (∀ b, chapterLoop api (pyStrip raw) (parseOutline rows) "" = .error b →
      pyStrip raw ≠ "" → (mainRun api (some raw) (some rows)).1 = 1) ∧
    (∀ b, chapterLoop api (pyStrip raw) (parseOutline rows) "" = .ok b →
      api (summaryPrompt b) = none → pyStrip raw ≠ "" → parseOutline rows ≠ [] →
      (mainRun api (some raw) (some rows)).1 = 1) := by
  refine ⟨rfl, ?_, ?_, ?_, ?_, ?_, ?_⟩
  · intro h
    simp [mainRun, h]
  · intro h
    simp [mainRun, h]
  · intro h hrows
    simp [mainRun, h, hrows]
  · intro hapi
    by_cases hraw : pyStrip raw = ""
    · simp [mainRun, hraw]
    · by_cases hrows : parseOutline rows = []
      · simp [mainRun, hraw, hrows]
      · obtain ⟨bk, hbk⟩ := chapterLoop_total api (pyStrip raw) hapi (parseOutline rows) ""
        obtain ⟨w, hw⟩ := Option.isSome_iff_exists.mp (hapi (summaryPrompt bk))
        simp [mainRun, hraw, hrows, hbk, hw]
  · intro b hb hraw
    by_cases hrows : parseOutline rows = []
    · rw [hrows] at hb
      simp [chapterLoop] at hb
    · simp [mainRun, hraw, hrows, hb]
  · intro b hb hsum hraw hrows
    simp [mainRun, hraw, hrows, hb, hsum]

/-- An endpoint oracle that always fails at transport level. -/
def apiFail : String → Option String := fun _ => none

theorem claim5_witness :
    mainRun apiFail none (some rowsW) = (1, "") ∧
    mainRun apiFail (some " ") (some rowsW) = (0, "") ∧
    (mainRun apiFail (some "s") (some rowsW)).1 = 1 ∧
    (mainRun apiW (some "s") (some rowsW)).1 = 0 :=
  ⟨(claim5_exit_codes apiFail "s" rowsW (some rowsW)).1,
   (claim5_exit_codes apiFail " " rowsW (some rowsW)).2.1 rfl,
   (claim5_exit_codes apiFail "s" rowsW (some rowsW)).2.2.2.2.2.1 "" rfl (by decide),
   (claim5_exit_codes apiW "s" rowsW (some rowsW)).2.2.2.2.1 (fun _ => rfl)⟩

/-- Claim C6: when a prior transcript exists at run start it is renamed to
the timestamped archive name with its content unchanged — neither
overwritten nor deleted, and no other file is removed — the new run starts
with no `book.txt`, and the transcript a run produces does not depend on the
prior file-system state at all. -/
theorem claim6_archive_rename (ts : String) (fs : FileSys) (content : String)
    (h : fs.book = some content) :
    (archiveStep ts fs).book = none ∧
    (archiveName ts, content) ∈ (archiveStep ts fs).files ∧
    (∀ e ∈ fs.files, e ∈ (archiveStep ts fs).files) ∧
    (∀ (api : String → Option String) inputF outlineF (fs' : FileSys),
      (mainFull ts api inputF outlineF fs).2.book =
        (mainFull ts api inputF outlineF fs').2.book) := by
  refine ⟨?_, ?_, ?_, ?_⟩
  · simp [archiveStep, h]
  · simp [archiveStep, h]
  · intro e he
    simp only [archiveStep, h]
    exact List.mem_cons_of_mem _ he
  · intro api inputF outlineF fs'
    simp [mainFull]

/-- A directory holding a prior transcript and the two input files. -/
def fsW : FileSys := ⟨some "old run", [("input.txt", "s"), ("outline.txt", "1,A,o")]⟩

theorem claim6_witness :
    (archiveStep "20250101_120000" fsW).book = none ∧
    (archiveName "20250101_120000", "old run") ∈ (archiveStep "20250101_120000" fsW).files ∧
    ("input.txt", "s") ∈ (archiveStep "20250101_120000" fsW).files :=
  ⟨(claim6_archive_rename "20250101_120000" fsW "old run" rfl).1,
   (claim6_archive_rename "20250101_120000" fsW "old run" rfl).2.1,
   (claim6_archive_rename "20250101_120000" fsW "old run" rfl).2.2.1 _ (by decide)⟩

/-- Claim C8: the archive rename happens before the input files are
validated, so even when the run aborts because the book summary is missing
or empty, or the outline is missing or yields no well-formed rows, a
pre-existing transcript has already been renamed to its timestamped archive
name by the time the process exits: the failure path does not leave the
file-system state unchanged. -/
theorem claim8_archive_before_validation (ts : String)
    (api : String → Option String) (o : Option (List (List String)))
    (raw : String) (rows : List (List String)) (fs : FileSys) (content : String)
    (h : fs.book = some content) :
    ((mainFull ts api none o fs).1 = 1 ∧
      (archiveName ts, content) ∈ (mainFull ts api none o fs).2.files) ∧
    (pyStrip raw = "" →
      (mainFull ts api (some raw) o fs).1 = 0 ∧
      (archiveName ts, content) ∈ (mainFull ts api (some raw) o fs).2.files) ∧
    (pyStrip raw ≠ "" →
      (mainFull ts api (some raw) none fs).1 = 1 ∧
      (archiveName ts, content) ∈ (mainFull ts api (some raw) none fs).2.files) ∧
    (pyStrip raw ≠ "" → parseOutline rows = [] →
      (mainFull ts api (some raw) (some rows) fs).1 = 0 ∧
      (archiveName ts, content) ∈ (mainFull ts api (some raw) (some rows) fs).2.files) := by
  refine ⟨⟨?_, ?_⟩, fun he => ⟨?_, ?_⟩, fun hne => ⟨?_, ?_⟩, fun hne hrows => ⟨?_, ?_⟩⟩
  · simp [mainFull, mainRun]
  · simp [mainFull, archiveStep, h]
  · simp [mainFull, mainRun, he]
  · simp [mainFull, archiveStep, h]
  · simp [mainFull, mainRun, hne]
  · simp [mainFull, archiveStep, h]
  · simp [mainFull, mainRun, hne, hrows]
  · simp [mainFull, archiveStep, h]

/-! ### Lemmas about the heading converter -/

theorem stripPrefixCs_append (ps cs : List Char) : stripPrefixCs ps (ps ++ cs) = some cs := by
  induction ps with
  | nil => rfl
  | cons p ps ih => simp [stripPrefixCs, ih]

theorem stripPrefixCs_length (ps : List Char) :
    ∀ cs rest : List Char, stripPrefixCs ps cs = some rest →
      cs.length = ps.length + rest.length := by
  induction ps with
  | nil =>
    intro cs rest h
    simp only [stripPrefixCs, Option.some.injEq] at h
    subst h
    simp
  | cons p ps ih =>
    intro cs rest h
    cases cs with
    | nil => simp [stripPrefixCs] at h
    | cons c cs' =>
      by_cases hc : c = p
      · simp only [stripPrefixCs, hc, if_true] at h
        have := ih cs' rest h
        simp only [List.length_cons]
        omega
      · simp [stripPrefixCs, hc] at h

theorem takeWhile_all_append (p : Char → Bool) (ds : List Char) (x : Char) (l : List Char)
    (hds : ∀ c ∈ ds, p c = true) (hx : p x = false) :
    (ds ++ x :: l).takeWhile p = ds := by
  induction ds with
  | nil => simp [List.takeWhile_cons, hx]
  | cons d ds ih =>
    have hd := hds d (List.mem_cons_self d ds)
    simp [List.takeWhile_cons, hd, ih fun c hc => hds c (List.mem_cons_of_mem d hc)]

theorem dropWhile_all_append (p : Char → Bool) (ds : List Char) (x : Char) (l : List Char)
    (hds : ∀ c ∈ ds, p c = true) (hx : p x = false) :
    (ds ++ x :: l).dropWhile p = x :: l := by
  induction ds with
  | nil => simp [List.dropWhile_cons, hx]
  | cons d ds ih =>
    have hd := hds d (List.mem_cons_self d ds)
    simp [List.dropWhile_cons, hd, ih fun c hc => hds c (List.mem_cons_of_mem d hc)]

theorem matchChapterAt_not_hash (c : Char) (rest : List Char) (h : c ≠ '#') :
    matchChapterAt (c :: rest) = none := by
  have hd : "### Chapter ".data = '#' :: "## Chapter ".data := rfl
  simp only [matchChapterAt, hd, stripPrefixCs]
  simp [h]

theorem matchChapterAt_length (cs t after : List Char)
    (h : matchChapterAt cs = some (t, after)) : after.length < cs.length := by
  unfold matchChapterAt at h
  cases h1 : stripPrefixCs "### Chapter ".data cs with
  | none => simp [h1] at h
  | some cs1 =>
    simp only [h1] at h
    by_cases hde : cs1.takeWhile Char.isDigit = []
    · simp [hde] at h
    · rw [if_neg hde] at h
      cases h2 : stripPrefixCs [':', ' '] (cs1.dropWhile Char.isDigit) with
      | none => simp [h2] at h
      | some cs3 =>
        simp only [h2] at h
        by_cases hte : cs3.takeWhile (fun c => c != '\n') = []
        · simp [hte] at h
        · rw [if_neg hte] at h
          simp only [Option.some.injEq, Prod.mk.injEq] at h
          obtain ⟨ht, ha⟩ := h
          have l1 := stripPrefixCs_length _ _ _ h1
          have l2 := stripPrefixCs_length _ _ _ h2
          have l3 : (cs1.takeWhile Char.isDigit).length +
              (cs1.dropWhile Char.isDigit).length = cs1.length := by
            rw [← List.length_append, List.takeWhile_append_dropWhile]
          have l4 : (cs3.takeWhile (fun c => c != '\n')).length +
              (cs3.dropWhile (fun c => c != '\n')).length = cs3.length := by
            rw [← List.length_append, List.takeWhile_append_dropWhile]
          have hlen12 : ("### Chapter ".data).length = 12 := rfl
          have hlen2 : ([':', ' '] : List Char).length = 2 := rfl
          subst ha
          omega

theorem matchChapterAt_heading (ds t rest : List Char)
    (hds : ds ≠ []) (hdd : ∀ c ∈ ds, Char.isDigit c = true)
    (ht : t ≠ []) (htn : ∀ c ∈ t, c ≠ '\n') :
    matchChapterAt ("### Chapter ".data ++ (ds ++ ':' :: ' ' :: (t ++ '\n' :: rest))) =
      some (t, '\n' :: rest) := by
  have htake : (ds ++ ':' :: ' ' :: (t ++ '\n' :: rest)).takeWhile Char.isDigit = ds :=
    takeWhile_all_append Char.isDigit ds ':' _ hdd (by decide)
  have hdrop : (ds ++ ':' :: ' ' :: (t ++ '\n' :: rest)).dropWhile Char.isDigit =
      ':' :: ' ' :: (t ++ '\n' :: rest) :=
    dropWhile_all_append Char.isDigit ds ':' _ hdd (by decide)
  have hstr2 : stripPrefixCs [':', ' '] (':' :: ' ' :: (t ++ '\n' :: rest)) =
      some (t ++ '\n' :: rest) := by simp [stripPrefixCs]
  have hQ : ∀ c ∈ t, (c != '\n') = true := fun c hc => by simpa using htn c hc
  have htake2 : (t ++ '\n' :: rest).takeWhile (fun c => c != '\n') = t :=
    takeWhile_all_append _ t '\n' rest hQ (by decide)
  have hdrop2 : (t ++ '\n' :: rest).dropWhile (fun c => c != '\n') = '\n' :: rest :=
    dropWhile_all_append _ t '\n' rest hQ (by decide)
  simp only [matchChapterAt, stripPrefixCs_append, htake, hdrop, hstr2, htake2, hdrop2]
  rw [if_neg hds, if_neg ht]

theorem convertSubF_succ : ∀ (fuel : Nat) (cs : List Char), cs.length ≤ fuel →
    convertSubF (fuel + 1) cs = convertSubF fuel cs := by
  intro fuel
  induction fuel with
  | zero =>
    intro cs h
    have hnil : cs = [] := List.length_eq_zero.mp (Nat.le_zero.mp h)
    subst hnil
    rfl
  | succ f ih =>
    intro cs h
    cases cs with
    | nil => rfl
    | cons c rest =>
      have hr : rest.length ≤ f := by
        simp only [List.length_cons] at h
        omega
      cases hm : matchChapterAt (c :: rest) with
      | some p =>
        obtain ⟨t, after⟩ := p
        have hlt := matchChapterAt_length _ _ _ hm
        have hle : after.length ≤ f := by
          simp only [List.length_cons] at hlt
          omega
        simp only [convertSubF, hm]
        rw [ih after hle]
      | none =>
        simp only [convertSubF, hm]
        rw [ih rest hr]

theorem convertSubF_of_ge (fuel : Nat) (cs : List Char) (h : cs.length ≤ fuel) :
    convertSubF fuel cs = convertSub cs := by
  unfold convertSub
  obtain ⟨d, hd⟩ : ∃ d, fuel = cs.length + d := ⟨fuel - cs.length, by omega⟩
  subst hd
  induction d with
  | zero => rfl
  | succ d ih =>
    have he : cs.length + (d + 1) = (cs.length + d) + 1 := by omega
    rw [he, convertSubF_succ (cs.length + d) cs (by omega), ih (by omega)]

theorem convertSub_cons_none (c : Char) (rest : List Char)
    (h : matchChapterAt (c :: rest) = none) :
    convertSub (c :: rest) = c :: convertSub rest := by
  show convertSubF (c :: rest).length (c :: rest) = _
  simp only [List.length_cons, convertSubF, h]
  rw [convertSubF_of_ge rest.length rest (le_refl _)]

theorem convertSub_cons_match (c : Char) (rest t after : List Char)
    (h : matchChapterAt (c :: rest) = some (t, after)) :
    convertSub (c :: rest) = chapterRepl t ++ convertSub after := by
  have hlt := matchChapterAt_length (c :: rest) t after h
  show convertSubF (c :: rest).length (c :: rest) = _
  simp only [List.length_cons, convertSubF, h]
  rw [convertSubF_of_ge rest.length after (by
    simp only [List.length_cons] at hlt
    omega)]

theorem convertSub_no_match (cs : List Char)
    (h : ∀ i < cs.length, matchChapterAt (cs.drop i) = none) :
    convertSub cs = cs := by
  induction cs with
  | nil => rfl
  | cons c rest ih =>
    have h0 : matchChapterAt (c :: rest) = none := by simpa using h 0 (by simp)
    rw [convertSub_cons_none c rest h0,
      ih fun i hi => by simpa using h (i + 1) (by simpa using Nat.succ_lt_succ hi)]

theorem convertSub_hashfree_append (pre cs : List Char)
    (h : ∀ c ∈ pre, c ≠ '#') :
    convertSub (pre ++ cs) = pre ++ convertSub cs := by
  induction pre with
  | nil => simp
  | cons p pre ih =>
    have hp : p ≠ '#' := h p (List.mem_cons_self p pre)
    rw [List.cons_append, convertSub_cons_none _ _ (matchChapterAt_not_hash p _ hp),
      ih fun c hc => h c (List.mem_cons_of_mem p hc), List.cons_append]

theorem convertSub_heading (ds t rest : List Char)
    (hds : ds ≠ []) (hdd : ∀ c ∈ ds, Char.isDigit c = true)
    (ht : t ≠ []) (htn : ∀ c ∈ t, c ≠ '\n') :
    convertSub ("### Chapter ".data ++ (ds ++ ':' :: ' ' :: (t ++ '\n' :: rest))) =
      chapterRepl t ++ convertSub ('\n' :: rest) := by
  have hm := matchChapterAt_heading ds t rest hds hdd ht htn
  have hshape : "### Chapter ".data ++ (ds ++ ':' :: ' ' :: (t ++ '\n' :: rest)) =
      '#' :: ("## Chapter ".data ++ (ds ++ ':' :: ' ' :: (t ++ '\n' :: rest))) := rfl
  rw [hshape] at hm ⊢
  exact convertSub_cons_match _ _ t ('\n' :: rest) hm

/-- An outline file whose only row has two fields: present, but yielding no
well-formed rows. -/
def rowsShort : List (List String) := [["1", "A"]]

theorem claim8_witness :
    (mainFull "20250101_120000" apiFail none (some rowsW) fsW).1 = 1 ∧
    (archiveName "20250101_120000", "old run") ∈
      (mainFull "20250101_120000" apiFail none (some rowsW) fsW).2.files ∧
    (archiveName "20250101_120000", "old run") ∈
      (mainFull "20250101_120000" apiFail (some " ") (some rowsW) fsW).2.files ∧
    ((mainFull "20250101_120000" apiFail (some "s") (some rowsShort) fsW).1 = 0 ∧
      (archiveName "20250101_120000", "old run") ∈
        (mainFull "20250101_120000" apiFail (some "s") (some rowsShort) fsW).2.files) :=
  ⟨(claim8_archive_before_validation "20250101_120000" apiFail (some rowsW) "s" rowsW fsW
      "old run" rfl).1.1,
   (claim8_archive_before_validation "20250101_120000" apiFail (some rowsW) "s" rowsW fsW
      "old run" rfl).1.2,
   ((claim8_archive_before_validation "20250101_120000" apiFail (some rowsW) " " rowsW fsW
      "old run" rfl).2.1 rfl).2,
   (claim8_archive_before_validation "20250101_120000" apiFail (some rowsW) "s" rowsShort fsW
      "old run" rfl).2.2.2 (by decide) (by decide)⟩

/-! ### Claims about the heading converter -/

/-- Claim C7: the heading converter replaces a heading occurrence matching
`### Chapter <digits>: <title>` (non-empty digit run, non-empty title) by
the LaTeX chapter command whose sole argument is the title — the chapter
number is not carried into the replacement — and passes text in which no
position matches the pattern through unchanged; in particular an input
containing `### Chapter 3: The Storm` yields the chapter command with
argument `The Storm`. -/
theorem claim7_heading_conversion (s pre d t post : String)
    (hs : ∀ i < s.data.length, matchChapterAt (s.data.drop i) = none)
    (hpre : ∀ c ∈ pre.data, c ≠ '#')
    (hd : d.data ≠ []) (hdd : ∀ c ∈ d.data, Char.isDigit c = true)
    (ht : t.data ≠ []) (htn : ∀ c ∈ t.data, c ≠ '\n') :
    convertString s = s ∧
    convertString (pre ++ "### Chapter " ++ d ++ ": " ++ t ++ "\n" ++ post) =
      pre ++ "\\chapter\x7b" ++ t ++ "\x7d\n" ++ convertString post := by
  constructor
  · show String.mk (convertSub s.data) = s
    rw [convertSub_no_match s.data hs]
  · show String.mk (convertSub (pre ++ "### Chapter " ++ d ++ ": " ++ t ++ "\n" ++ post).data) = _
    have hdata : (pre ++ "### Chapter " ++ d ++ ": " ++ t ++ "\n" ++ post).data =
        pre.data ++ ("### Chapter ".data ++
          (d.data ++ ':' :: ' ' :: (t.data ++ '\n' :: post.data))) := by
      simp only [String.data_append, List.append_assoc]
      rfl
    rw [hdata, convertSub_hashfree_append pre.data _ hpre,
      convertSub_heading d.data t.data post.data hd hdd ht htn,
      convertSub_cons_none '\n' post.data (matchChapterAt_not_hash '\n' post.data (by decide))]
    have hrhs : (pre ++ "\\chapter\x7b" ++ t ++ "\x7d\n" ++ convertString post).data =
        pre.data ++ (chapterRepl t.data ++ '\n' :: convertSub post.data) := by
      simp only [String.data_append, chapterRepl, List.append_assoc]
      rfl
    rw [← hrhs]

theorem claim7_witness :
    convertString "no heading here" = "no heading here" ∧
    convertString ("xx\n" ++ "### Chapter " ++ "3" ++ ": " ++ "The Storm" ++ "\n" ++ "yy") =
      "xx\n" ++ "\\chapter\x7b" ++ "The Storm" ++ "\x7d\n" ++ convertString "yy" :=
  claim7_heading_conversion "no heading here" "xx\n" "3" "The Storm" "yy"
    (by decide) (by decide) (by decide) (by decide) (by decide) (by decide)

/-- Claim C9, as stated, fails on the code: the chapter number `"1"` is a
non-empty digit string and the title `"A\nB"` is non-empty, yet running the
converter on the writer's block does not replace the heading with the
chapter command for that title — the regex's title capture stops at the
newline, so only `A` lands in the command and `B` stays behind. -/
theorem claim9_counterexample :
    convertString (chapterBlock "1" "A\nB" "b") ≠ "\n\n\\chapter\x7bA\nB\x7d\n\nb\n" ∧
    convertString (chapterBlock "1" "A\nB" "b") = "\n\n\\chapter\x7bA\x7d\nB\n\nb\n" := by
  exact ⟨by decide, by decide⟩

/-- Claim C9 (amended): for every chapter whose number is a non-empty digit
string and whose title is non-empty and contains no newline character,
running the converter's substitution on the transcript block produced by the
chapter writer replaces the block's heading with the LaTeX chapter command
for its title (dropping the chapter number), the rest of the block being
scanned independently. -/
theorem claim9_roundtrip_amended (num title body : String)
    (hn : num.data ≠ []) (hnd : ∀ c ∈ num.data, Char.isDigit c = true)
    (ht : title.data ≠ []) (htn : ∀ c ∈ title.data, c ≠ '\n') :
    convertString (chapterBlock num title body) =
      "\n\n\\chapter\x7b" ++ title ++ "\x7d\n\n" ++ convertString (body ++ "\n") := by
  show String.mk (convertSub (chapterBlock num title body).data) = _
  have hdata : (chapterBlock num title body).data =
      '\n' :: '\n' :: ("### Chapter ".data ++
        (num.data ++ ':' :: ' ' :: (title.data ++ '\n' ::
          ('\n' :: (body.data ++ ['\n']))))) := by
    simp only [chapterBlock, String.data_append, List.append_assoc]
    rfl
  rw [hdata,
    convertSub_cons_none '\n' _ (matchChapterAt_not_hash '\n' _ (by decide)),
    convertSub_cons_none '\n' _ (matchChapterAt_not_hash '\n' _ (by decide)),
    convertSub_heading num.data title.data ('\n' :: (body.data ++ ['\n'])) hn hnd ht htn,
    convertSub_cons_none '\n' _ (matchChapterAt_not_hash '\n' _ (by decide)),
    convertSub_cons_none '\n' _ (matchChapterAt_not_hash '\n' _ (by decide))]
  have hrhs : ("\n\n\\chapter\x7b" ++ title ++ "\x7d\n\n" ++ convertString (body ++ "\n")).data =
      '\n' :: '\n' :: (chapterRepl title.data ++ '\n' :: '\n' ::
        convertSub (body.data ++ ['\n'])) := by
    simp only [String.data_append, chapterRepl, List.append_assoc]
    rfl
  rw [← hrhs]

theorem claim9_witness :
    convertString (chapterBlock "3" "The Storm" "b") =
      "\n\n\\chapter\x7bThe Storm\x7d\n\nb\n" := by
  rw [claim9_roundtrip_amended "3" "The Storm" "b" (by decide) (by decide) (by decide) (by decide)]
  decide

end Book
